import Mathlib

/-!
Shallow embedding of `src/gil.rs` (pyo3's GIL interaction layer) and proofs
about it.

Modelling conventions:
* A `Handle` is an opaque non-null `*mut ffi::PyObject`; we model it as a `Nat`.
* Python reference counts are modelled as a total map `Handle → Int`;
  `ffi::Py_INCREF` / `ffi::Py_DECREF` become pointwise updates of that map.
  `Py_DECREF` may run arbitrary destructor code; where that matters the
  destructor's re-entrant calls into this module are passed as explicit
  oracle arguments (see `ReferencePool.update_counts` and `GILPool.drop`).
* `GIL_COUNT` is a thread-local `Cell<u32>`; we model its value as a `Nat`
  taken modulo `2 ^ 32` wherever the Rust `u32` arithmetic can wrap.
  Release-build semantics (overflow checks off, `debug_assert!` compiled
  out) and debug-build semantics (a failed `debug_assert!` aborts) are
  modelled by separate functions where they differ; a Rust panic is
  modelled as `Option.none`.
* Thread-local-storage access failure (`LocalKey::try_with` returning
  `Err`, which happens during thread teardown / `atexit`) is modelled by a
  `tls` boolean argument: `true` means the storage is accessible.
* The FFI lock primitives (`PyGILState_Ensure` / `PyGILState_Release`) act
  only on external interpreter state; for the ordering claim about
  `GILGuard`'s destructor they appear as events in an explicit event trace.
-/

/-- Handles are opaque non-null object pointers (`NonNull<ffi::PyObject>`). -/
abbrev Handle := Nat

/-- The modulus of Rust's `u32`, the type of the thread-local `GIL_COUNT`. -/
def u32Mod : Nat := 2 ^ 32

/-- Model of `ffi::Py_INCREF`: add one to the object's reference count. -/
def Py_INCREF (rc : Handle → Int) (obj : Handle) : Handle → Int :=
  fun q => if q = obj then rc q + 1 else rc q

/-- Model of `ffi::Py_DECREF`: subtract one from the object's reference
count.  (The free-at-zero behaviour runs arbitrary destructor code; its
re-entrant effects on this module's state are passed explicitly where a
claim depends on them.) -/
def Py_DECREF (rc : Handle → Int) (obj : Handle) : Handle → Int :=
  fun q => if q = obj then rc q - 1 else rc q

/-- Apply `Py_INCREF` to each handle of a list in order (the first `for`
loop of `update_counts`, gil.rs lines 217-219). -/
def applyIncrefs (l : List Handle) (rc : Handle → Int) : Handle → Int :=
  l.foldl Py_INCREF rc

/-- Apply `Py_DECREF` to each handle of a list in order (the second `for`
loop of `update_counts`, gil.rs lines 221-223). -/
def applyDecrefs (l : List Handle) (rc : Handle → Int) : Handle → Int :=
  l.foldl Py_DECREF rc

/-- `gil_is_acquired` (gil.rs lines 33-35): the thread-local `GIL_COUNT` is
positive. -/
def gil_is_acquired (gil_count : Nat) : Bool :=
  decide (0 < gil_count)

/-- `ReferencePool` (gil.rs lines 179-182): the two process-wide vectors of
pointers whose reference count must be adjusted at the next GIL
acquisition.  Each vector sits behind its own mutex; the lock itself is
invisible in this sequential model. -/
structure ReferencePool where
  pointers_to_incref : List Handle
  pointers_to_decref : List Handle
deriving DecidableEq

/-- `ReferencePool::register_incref` (gil.rs lines 192-194): push onto the
pending-increment vector. -/
def ReferencePool.register_incref (p : ReferencePool) (obj : Handle) : ReferencePool :=
  { p with pointers_to_incref := p.pointers_to_incref ++ [obj] }

/-- `ReferencePool::register_decref` (gil.rs lines 196-198): push onto the
pending-decrement vector. -/
def ReferencePool.register_decref (p : ReferencePool) (obj : Handle) : ReferencePool :=
  { p with pointers_to_decref := p.pointers_to_decref ++ [obj] }

/-- The `swap_vec_with_lock!` macro of `update_counts` (gil.rs lines
201-212): under the vector's mutex, swap the vector with an empty one and
return the old contents (the `is_empty` test only avoids a swap of two
empty vectors).  Returns `(contents taken out, vector left behind)`. -/
def swap_vec_with_lock (locked : List Handle) : List Handle × List Handle :=
  if locked.isEmpty then ([], locked) else (locked, [])

/-- `ReferencePool::update_counts` (gil.rs lines 200-224): swap out the
pending-increment vector and apply every increment, then swap out the
pending-decrement vector and apply every decrement.  `Py_INCREF` runs no
user code, but `Py_DECREF` can run destructors that re-enter
`register_incref` / `register_decref` on the now-fresh vectors; those
re-entrant registrations (in arrival order) are the `reentrant_incref` /
`reentrant_decref` arguments, pushed after the corresponding swap.
Returns the pool left behind and the updated reference counts. -/
def ReferencePool.update_counts (p : ReferencePool) (rc : Handle → Int)
    (reentrant_incref reentrant_decref : List Handle) :
    ReferencePool × (Handle → Int) :=
  let inc := swap_vec_with_lock p.pointers_to_incref
  let rc1 := applyIncrefs inc.1 rc
  let dec := swap_vec_with_lock p.pointers_to_decref
  let rc2 := applyDecrefs dec.1 rc1
  (⟨inc.2 ++ reentrant_incref, dec.2 ++ reentrant_decref⟩, rc2)

/-- Process-wide state visible to the free functions `register_incref` /
`register_decref` (gil.rs lines 295-317): the true reference counts plus
the static `POOL`. -/
structure GlobalSt where
  rc : Handle → Int
  pool : ReferencePool

/-- Free function `register_incref` (gil.rs lines 295-301): with the GIL,
increment immediately; without it, queue in the pool. -/
def register_incref (gil_count : Nat) (obj : Handle) (s : GlobalSt) : GlobalSt :=
  if gil_is_acquired gil_count then
    { s with rc := Py_INCREF s.rc obj }
  else
    { s with pool := s.pool.register_incref obj }

/-- Free function `register_decref` (gil.rs lines 311-317): with the GIL,
decrement immediately; without it, queue in the pool. -/
def register_decref (gil_count : Nat) (obj : Handle) (s : GlobalSt) : GlobalSt :=
  if gil_is_acquired gil_count then
    { s with rc := Py_DECREF s.rc obj }
  else
    { s with pool := s.pool.register_decref obj }

/-- A sequence of registration requests, in arrival order: `(true, h)` is a
`register_incref h`, `(false, h)` a `register_decref h`. -/
def registerMany (gil_count : Nat) (regs : List (Bool × Handle)) (s : GlobalSt) : GlobalSt :=
  regs.foldl
    (fun st r => if r.1 then register_incref gil_count r.2 st
                 else register_decref gil_count r.2 st) s

/-- The handles of the increment requests of a registration sequence, in
arrival order. -/
def increfsOf (regs : List (Bool × Handle)) : List Handle :=
  (regs.filter (fun r => r.1)).map (fun r => r.2)

/-- The handles of the decrement requests of a registration sequence, in
arrival order. -/
def decrefsOf (regs : List (Bool × Handle)) : List Handle :=
  (regs.filter (fun r => !r.1)).map (fun r => r.2)

theorem swap_vec_with_lock_eq (l : List Handle) : swap_vec_with_lock l = (l, []) := by
  cases l <;> simp [swap_vec_with_lock]

theorem applyIncrefs_count (l : List Handle) (rc : Handle → Int) (h : Handle) :
    applyIncrefs l rc h = rc h + (l.count h : Int) := by
  induction l generalizing rc with
  | nil => simp [applyIncrefs]
  | cons a l ih =>
    simp only [applyIncrefs, List.foldl_cons] at *
    rw [ih]
    by_cases hqa : h = a
    · subst hqa
      simp [Py_INCREF, List.count_cons]
      ring
    · simp [Py_INCREF, List.count_cons, hqa, Ne.symm hqa]

theorem applyDecrefs_count (l : List Handle) (rc : Handle → Int) (h : Handle) :
    applyDecrefs l rc h = rc h - (l.count h : Int) := by
  induction l generalizing rc with
  | nil => simp [applyDecrefs]
  | cons a l ih =>
    simp only [applyDecrefs, List.foldl_cons] at *
    rw [ih]
    by_cases hqa : h = a
    · subst hqa
      simp [Py_DECREF, List.count_cons]
      ring
    · simp [Py_DECREF, List.count_cons, hqa, Ne.symm hqa]

theorem registerMany_not_held (regs : List (Bool × Handle)) (s : GlobalSt) :
    registerMany 0 regs s =
      ⟨s.rc, ⟨s.pool.pointers_to_incref ++ increfsOf regs,
              s.pool.pointers_to_decref ++ decrefsOf regs⟩⟩ := by
  induction regs generalizing s with
  | nil => simp [registerMany, increfsOf, decrefsOf]
  | cons r regs ih =>
    obtain ⟨b, h⟩ := r
    cases b <;>
      simp [registerMany, List.foldl_cons, register_incref, register_decref,
        gil_is_acquired, ReferencePool.register_incref,
        ReferencePool.register_decref] at * <;>
      rw [ih] <;>
      simp [increfsOf, decrefsOf]

/-- Thread-local state of gil.rs (lines 12-25): the `GIL_COUNT` cell and the
`OWNED_OBJECTS` pending-release vector. -/
structure ThreadSt where
  gil_count : Nat
  owned_objects : List Handle
deriving DecidableEq

/-- `increment_gil_count` as written (gil.rs lines 331-334).  It calls
`LocalKey::with`, which panics (`none`) when the thread-local cell is
inaccessible — the `let _ =` before it discards only the unit value, not an
error, despite the comment claiming the error is ignored.  On success the
`u32` addition wraps in release builds. -/
def increment_gil_count_code (tls : Bool) (c : Nat) : Option Nat :=
  if tls then some ((c + 1) % u32Mod) else none

/-- The successful path of `increment_gil_count` (thread-local storage
accessible), used by `GILPool::new`. -/
def increment_gil_count (c : Nat) : Nat :=
  (c + 1) % u32Mod

/-- `decrement_gil_count` (gil.rs lines 339-348), debug-build semantics:
`try_with` failure is a silent no-op; a zero count fails the
`debug_assert!` (modelled `none`, a panic); otherwise subtract one. -/
def decrement_gil_count_debug (tls : Bool) (c : Nat) : Option Nat :=
  if tls then (if 0 < c then some (c - 1) else none) else some c

/-- `decrement_gil_count` (gil.rs lines 339-348), release-build semantics:
the `debug_assert!` is compiled out and `current - 1` is a wrapping `u32`
subtraction, so a zero count wraps to `2 ^ 32 - 1`. -/
def decrement_gil_count_release (tls : Bool) (c : Nat) : Nat :=
  if tls then (c + (u32Mod - 1)) % u32Mod else c

/-- `register_owned` (gil.rs lines 323-327): push the handle onto the
thread's `OWNED_OBJECTS`; `try_with` failure makes it a silent no-op. -/
def register_owned (tls : Bool) (obj : Handle) (t : ThreadSt) : ThreadSt :=
  if tls then { t with owned_objects := t.owned_objects ++ [obj] } else t

/-- `GILPool` (gil.rs lines 232-237): the recorded start index into
`OWNED_OBJECTS`, absent when thread-local storage was broken at creation
time.  (The `no_send` marker has no runtime content and is omitted.) -/
structure GILPool where
  start : Option Nat
deriving DecidableEq

/-- `GILPool::new` (gil.rs lines 248-256): increment the GIL count, drain
the reference pool (no re-entrant registrations arise on this path), and
record the current length of `OWNED_OBJECTS` as `start` — `none` if
`try_with` fails.  Returns the pool object and the updated thread-local and
process-wide state. -/
def GILPool.new (tls : Bool) (t : ThreadSt) (g : GlobalSt) :
    GILPool × ThreadSt × GlobalSt :=
  let c := increment_gil_count t.gil_count
  let r := g.pool.update_counts g.rc [] []
  (⟨if tls then some t.owned_objects.length else none⟩,
   ⟨c, t.owned_objects⟩, ⟨r.2, r.1⟩)

/-- `impl Drop for GILPool` (gil.rs lines 264-285).  If `start` is present,
the whole suffix of `OWNED_OBJECTS` from `start` on is split off in one
step (while the `RefCell` borrow is held), and only then is each split-off
handle passed to `Py_DECREF` in recorded order.  Handles that destructor
code pushes through `register_owned` while that decref loop runs land on
the already-truncated list; they are the `during` argument.  Finally the
GIL count is decremented (release semantics; thread-local cell
accessible).  Returns the new thread state and the split-off handles in
the order they are decref'd. -/
def GILPool.drop (p : GILPool) (during : List Handle) (t : ThreadSt) :
    ThreadSt × List Handle :=
  match p.start with
  | some obj_len_start =>
    let holder := t.owned_objects
    let dropping :=
      if obj_len_start < holder.length then holder.drop obj_len_start else []
    let holder1 :=
      if obj_len_start < holder.length then holder.take obj_len_start else holder
    let holder2 := during.foldl (fun o h => o ++ [h]) holder1
    (⟨decrement_gil_count_release true t.gil_count, holder2⟩, dropping)
  | none =>
    (⟨decrement_gil_count_release true t.gil_count, t.owned_objects⟩, [])

/-- `GILGuard` (gil.rs lines 125-128): its optional `GILPool`.  The
`gstate` field is the opaque FFI token for `PyGILState_Release` and has no
content in this model. -/
structure GILGuard where
  pool : Option GILPool
deriving DecidableEq

/-- `GILGuard::acquire` (gil.rs lines 139-158): after bootstrap and
`PyGILState_Ensure` (both act only on external interpreter state), create
a `GILPool` exactly when `gil_is_acquired()` is false, and store it in the
guard. -/
def GILGuard.acquire (t : ThreadSt) (g : GlobalSt) :
    GILGuard × ThreadSt × GlobalSt :=
  if !(gil_is_acquired t.gil_count) then
    let r := GILPool.new true t g
    (⟨some r.1⟩, r.2.1, r.2.2)
  else
    (⟨none⟩, t, g)

/-- Observable events of the RAII destructors, used to state ordering
claims: a `Py_DECREF` of an owned handle, the GIL-count decrement, and the
`PyGILState_Release` FFI call. -/
inductive Event where
  | decref (h : Handle)
  | gilCountDec
  | lockRelease
deriving DecidableEq, BEq

/-- Event trace of `impl Drop for GILPool` (gil.rs lines 264-285): one
`decref` per split-off handle, in order, then the GIL-count decrement. -/
def GILPool.dropEvents (p : GILPool) (during : List Handle) (t : ThreadSt) :
    List Event :=
  ((p.drop during t).2.map Event.decref) ++ [Event.gilCountDec]

/-- Event trace of `impl Drop for GILGuard` (gil.rs lines 168-176):
`ManuallyDrop::drop(&mut self.pool)` runs the pool's destructor first (if
a pool is present), and `PyGILState_Release` runs strictly after. -/
def GILGuard.dropTrace (gd : GILGuard) (during : List Handle) (t : ThreadSt) :
    List Event :=
  (match gd.pool with
   | some p => p.dropEvents during t
   | none => []) ++ [Event.lockRelease]

theorem foldl_push_eq_append (l init : List Handle) :
    l.foldl (fun o h => o ++ [h]) init = init ++ l := by
  induction l generalizing init with
  | nil => simp
  | cons a l ih => simp [List.foldl_cons, ih]

theorem drop_suffix_eq (pre recorded : List Handle) :
    (if pre.length < (pre ++ recorded).length
     then (pre ++ recorded).drop pre.length else []) = recorded := by
  cases recorded with
  | nil => simp
  | cons a l => simp [List.drop_left]

theorem take_start_eq (pre recorded : List Handle) :
    (if pre.length < (pre ++ recorded).length
     then (pre ++ recorded).take pre.length else pre ++ recorded) = pre := by
  cases recorded with
  | nil => simp
  | cons a l => simp [List.take_left]

theorem update_counts_eq (p : ReferencePool) (rc : Handle → Int)
    (ri rd : List Handle) :
    p.update_counts rc ri rd =
      (⟨ri, rd⟩,
       applyDecrefs p.pointers_to_decref (applyIncrefs p.pointers_to_incref rc)) := by
  simp [ReferencePool.update_counts, swap_vec_with_lock_eq]

/-- Concrete states used by the witnesses below. -/
def exampleSt : GlobalSt := ⟨fun _ => 5, ⟨[], []⟩⟩

/-- C1: for every sequence of increment and decrement registrations made
while the calling thread does not hold the GIL (count 0), followed by a
drain (`update_counts`), the net change to each handle's reference count
is the algebraic sum of its registered deltas, every pending increment is
applied before any pending decrement, and both queues end up empty —
regardless of the order in which the registrations arrived. -/
theorem update_counts_applies_sum_incs_before_decs
    (regs : List (Bool × Handle)) (rc : Handle → Int) (h : Handle) :
    ((registerMany 0 regs ⟨rc, ⟨[], []⟩⟩).pool.update_counts
        (registerMany 0 regs ⟨rc, ⟨[], []⟩⟩).rc [] []).2 h
      = rc h + ((increfsOf regs).count h : Int) - ((decrefsOf regs).count h : Int)
    ∧ ((registerMany 0 regs ⟨rc, ⟨[], []⟩⟩).pool.update_counts
        (registerMany 0 regs ⟨rc, ⟨[], []⟩⟩).rc [] []).2
      = applyDecrefs (decrefsOf regs) (applyIncrefs (increfsOf regs) rc)
    ∧ ((registerMany 0 regs ⟨rc, ⟨[], []⟩⟩).pool.update_counts
        (registerMany 0 regs ⟨rc, ⟨[], []⟩⟩).rc [] []).1 = ⟨[], []⟩ := by
  rw [registerMany_not_held regs ⟨rc, ⟨[], []⟩⟩]
  simp only [update_counts_eq, List.nil_append]
  refine ⟨?_, trivial, trivial⟩
  rw [applyDecrefs_count, applyIncrefs_count]

/-- C9: one call to `update_counts` applies exactly the entries present in
each pending list at the moment that list is swapped out; registrations
made while the swapped-out entries are being applied (e.g. by a destructor
re-entering `register_incref` / `register_decref` on the same thread) are
left queued, unapplied, in the fresh lists when `update_counts` returns. -/
theorem update_counts_leaves_reentrant_queued (p : ReferencePool)
    (rc : Handle → Int) (ri rd : List Handle) :
    (p.update_counts rc ri rd).1.pointers_to_incref = ri
    ∧ (p.update_counts rc ri rd).1.pointers_to_decref = rd
    ∧ (p.update_counts rc ri rd).2
      = applyDecrefs p.pointers_to_decref (applyIncrefs p.pointers_to_incref rc) := by
  simp [update_counts_eq]

/-- C2: closing a `GILPool` whose `start` marker is present releases
exactly the handles recorded after the batch opened, in recording order,
and leaves the handles recorded before `start` untouched in the list;
closing a batch with no handles recorded leaves the pending-release list
length unchanged. -/
theorem gilpool_drop_releases_recorded_tail (pre recorded : List Handle)
    (c : Nat) :
    (GILPool.drop ⟨some pre.length⟩ [] ⟨c, pre ++ recorded⟩).2 = recorded
    ∧ (GILPool.drop ⟨some pre.length⟩ [] ⟨c, pre ++ recorded⟩).1.owned_objects = pre
    ∧ (GILPool.drop ⟨some pre.length⟩ [] ⟨c, pre⟩).1.owned_objects.length
        = pre.length := by
  refine ⟨?_, ?_, ?_⟩
  · simp [GILPool.drop, drop_suffix_eq]
  · simp [GILPool.drop, take_start_eq, foldl_push_eq_append]
  · simp [GILPool.drop]

/-- C10: `GILPool`'s destructor removes its entire suffix from the
pending-release list in one step before performing any release, so a
handle recorded via `register_owned` while the release phase runs is not
released by that close, and afterwards the list holds the pre-start
entries plus exactly the handles recorded during the release phase. -/
theorem gilpool_drop_truncates_before_release
    (pre recorded during : List Handle) (c : Nat) :
    (GILPool.drop ⟨some pre.length⟩ during ⟨c, pre ++ recorded⟩).2 = recorded
    ∧ (GILPool.drop ⟨some pre.length⟩ during ⟨c, pre ++ recorded⟩).1.owned_objects
        = pre ++ during := by
  refine ⟨?_, ?_⟩
  · simp [GILPool.drop, drop_suffix_eq]
  · simp [GILPool.drop, take_start_eq, foldl_push_eq_append]

/-- C3: when the calling thread's GIL count is positive, `register_incref`
applies the increment to the handle's reference count immediately and
leaves both pending lists unchanged, and `register_decref` symmetrically
applies the decrement immediately; when the count is zero, each appends
the handle to its own pending list and leaves the reference counts and the
other pending list untouched. -/
theorem register_incref_decref_immediate_or_queued (c : Nat) (s : GlobalSt)
    (h : Handle) :
    (0 < c →
      (register_incref c h s).rc h = s.rc h + 1
      ∧ (register_incref c h s).pool = s.pool
      ∧ (register_decref c h s).rc h = s.rc h - 1
      ∧ (register_decref c h s).pool = s.pool)
    ∧ (c = 0 →
      (register_incref c h s).rc = s.rc
      ∧ (register_incref c h s).pool.pointers_to_incref
          = s.pool.pointers_to_incref ++ [h]
      ∧ (register_incref c h s).pool.pointers_to_decref
          = s.pool.pointers_to_decref
      ∧ (register_decref c h s).rc = s.rc
      ∧ (register_decref c h s).pool.pointers_to_decref
          = s.pool.pointers_to_decref ++ [h]
      ∧ (register_decref c h s).pool.pointers_to_incref
          = s.pool.pointers_to_incref) := by
  constructor
  · intro hc
    simp [register_incref, register_decref, gil_is_acquired, hc,
      Py_INCREF, Py_DECREF]
  · intro hc
    subst hc
    simp [register_incref, register_decref, gil_is_acquired,
      ReferencePool.register_incref, ReferencePool.register_decref]

theorem register_incref_decref_immediate_or_queued_witness :
    (register_incref 1 0 exampleSt).rc 0 = exampleSt.rc 0 + 1
    ∧ (register_incref 1 0 exampleSt).pool = exampleSt.pool
    ∧ (register_incref 0 0 exampleSt).pool.pointers_to_incref
        = exampleSt.pool.pointers_to_incref ++ [0]
    ∧ (register_decref 0 0 exampleSt).pool.pointers_to_decref
        = exampleSt.pool.pointers_to_decref ++ [0] := by
  refine ⟨?_, ?_, ?_, ?_⟩
  · exact ((register_incref_decref_immediate_or_queued 1 exampleSt 0).1
      (by decide)).1
  · exact ((register_incref_decref_immediate_or_queued 1 exampleSt 0).1
      (by decide)).2.1
  · exact ((register_incref_decref_immediate_or_queued 0 exampleSt 0).2
      rfl).2.1
  · exact ((register_incref_decref_immediate_or_queued 0 exampleSt 0).2
      rfl).2.2.2.2.1

/-- C4: `GILGuard::acquire` carries a `GILPool` exactly when the calling
thread's GIL count was zero at acquisition time; when the count was
already positive the guard carries no pool. -/
theorem gilguard_acquire_pool_iff_count_zero (t : ThreadSt) (g : GlobalSt) :
    (GILGuard.acquire t g).1.pool.isSome = decide (t.gil_count = 0) := by
  obtain ⟨c, o⟩ := t
  cases c <;> simp [GILGuard.acquire, GILPool.new, gil_is_acquired]

/-- C5: in the destructor of a `GILGuard` that owns a pool, the pool is
closed — all its recorded handles decref'd and the GIL count decremented —
strictly before `PyGILState_Release`; the lock-release event is the last
event of the trace, and no handle release occurs after it. -/
theorem gilguard_drop_releases_before_lock_release (p : GILPool)
    (during : List Handle) (t : ThreadSt) :
    GILGuard.dropTrace ⟨some p⟩ during t
      = ((p.drop during t).2.map Event.decref)
          ++ [Event.gilCountDec, Event.lockRelease]
    ∧ (GILGuard.dropTrace ⟨some p⟩ during t).getLast? = some Event.lockRelease
    ∧ ((GILGuard.dropTrace ⟨some p⟩ during t).dropLast.all
        (fun e => decide (e ≠ Event.lockRelease))) = true := by
  refine ⟨?_, ?_, ?_⟩
  · simp [GILGuard.dropTrace, GILPool.dropEvents]
  · simp [GILGuard.dropTrace, GILPool.dropEvents]
  · have h1 : GILGuard.dropTrace ⟨some p⟩ during t
        = ((p.drop during t).2.map Event.decref ++ [Event.gilCountDec])
            ++ [Event.lockRelease] := by
      simp [GILGuard.dropTrace, GILPool.dropEvents]
    rw [h1, List.dropLast_concat, List.all_eq_true]
    intro e he
    rcases List.mem_append.mp he with hm | hm
    · rcases List.mem_map.mp hm with ⟨x, _, rfl⟩
      simp
    · rcases List.mem_singleton.mp hm with rfl
      simp

/-- C6 counterexample: in release builds, `decrement_gil_count` at count
zero does corrupt further state — the `u32` subtraction wraps to a huge
positive value, after which `gil_is_acquired` reports the lock as held by
a thread that holds no guard at all. -/
theorem decrement_release_zero_corrupts :
    gil_is_acquired (decrement_gil_count_release true 0) = true
    ∧ decrement_gil_count_release true 0 ≠ 0 := by
  constructor
  · norm_num [decrement_gil_count_release, gil_is_acquired, u32Mod]
  · norm_num [decrement_gil_count_release, u32Mod]

/-- C6 amended: decrementing when the count is already zero triggers a
debug-only assertion; in release builds it is silent (no panic) but the
`u32` count wraps to `2 ^ 32 - 1` rather than staying at zero.  On a
positive in-range count, both builds subtract exactly one. -/
theorem decrement_gil_count_amended (c : Nat) (h1 : 0 < c) (h2 : c < u32Mod) :
    decrement_gil_count_debug true 0 = none
    ∧ decrement_gil_count_release true 0 = u32Mod - 1
    ∧ decrement_gil_count_debug true c = some (c - 1)
    ∧ decrement_gil_count_release true c = c - 1 := by
  have hm : 0 < u32Mod := by norm_num [u32Mod]
  refine ⟨rfl, ?_, ?_, ?_⟩
  · simp only [decrement_gil_count_release, if_true]
    rw [Nat.zero_add]
    exact Nat.mod_eq_of_lt (by omega)
  · simp [decrement_gil_count_debug, h1]
  · simp only [decrement_gil_count_release, if_true]
    have hsplit : c + (u32Mod - 1) = (c - 1) + u32Mod := by omega
    rw [hsplit, Nat.add_mod_right]
    exact Nat.mod_eq_of_lt (by omega)

theorem decrement_gil_count_amended_witness :
    decrement_gil_count_debug true 0 = none
    ∧ decrement_gil_count_release true 0 = u32Mod - 1
    ∧ decrement_gil_count_debug true 1 = some 0
    ∧ decrement_gil_count_release true 1 = 0 := by
  exact decrement_gil_count_amended 1 (by decide) (by norm_num [u32Mod])

/-- C7: `increment_gil_count` as written panics when thread-local storage
is inaccessible (it uses `LocalKey::with`; the `let _ =` discards the unit
value, not an error), contradicting its own comment and the spec, which
promise a silent no-op.  On accessible storage it adds one (mod `2^32`). -/
theorem increment_gil_count_panics_on_tls_failure (c : Nat) :
    increment_gil_count_code false c = none
    ∧ increment_gil_count_code true c = some ((c + 1) % u32Mod) :=
  ⟨rfl, rfl⟩

/-- C8 counterexample: `GILGuard::acquire` on a thread whose GIL count is
already positive (here 1) leaves the count unchanged — it does not
increment it, because no `GILPool` is created on that path. -/
theorem gilguard_acquire_no_increment :
    (GILGuard.acquire ⟨1, []⟩ ⟨fun _ => 0, ⟨[], []⟩⟩).2.1.gil_count = 1
    ∧ (GILGuard.acquire ⟨1, []⟩ ⟨fun _ => 0, ⟨[], []⟩⟩).2.1.gil_count ≠ 1 + 1 := by
  constructor <;> simp [GILGuard.acquire, gil_is_acquired]

/-- C8 amended: every creation of a `GILPool` (`GILPool::new`) increments
the calling thread's GIL count by one; `GILGuard::acquire` increments it
(by opening a pool) only when the count was zero, and leaves it unchanged
when the count was already positive. -/
theorem gil_count_increment_amended (tls : Bool) (t : ThreadSt) (g : GlobalSt)
    (hov : t.gil_count + 1 < u32Mod) :
    (GILPool.new tls t g).2.1.gil_count = t.gil_count + 1
    ∧ (t.gil_count = 0 → (GILGuard.acquire t g).2.1.gil_count = t.gil_count + 1)
    ∧ (0 < t.gil_count → (GILGuard.acquire t g).2.1.gil_count = t.gil_count) := by
  refine ⟨?_, ?_, ?_⟩
  · simp only [GILPool.new, increment_gil_count]
    exact Nat.mod_eq_of_lt hov
  · intro hc
    simp only [GILGuard.acquire, gil_is_acquired, hc]
    simp only [GILPool.new, increment_gil_count]
    simp [Nat.mod_eq_of_lt, hc, Nat.mod_eq_of_lt (hc ▸ hov)]
  · intro hc
    simp [GILGuard.acquire, gil_is_acquired, Nat.pos_iff_ne_zero.mp hc]

theorem gil_count_increment_amended_witness :
    (GILPool.new true ⟨0, []⟩ exampleSt).2.1.gil_count = 1
    ∧ (GILGuard.acquire ⟨0, []⟩ exampleSt).2.1.gil_count = 1 := by
  have h := gil_count_increment_amended true ⟨0, []⟩ exampleSt
    (by norm_num [u32Mod])
  exact ⟨h.1, h.2.1 rfl⟩
